import Mathlib

/-!
Shallow embedding of the reconciliation core of opnsense_phpipam_sync.py
(OPNsense DHCP/ARP to phpIPAM one-subnet sync), together with theorems
checking the design specification against it.

Python dictionaries keyed by IP strings are embedded as insertion-ordered
association lists; `dictInsert` replaces the value in place when the key is
present and appends otherwise, matching CPython assignment semantics.
Optional JSON fields (dict.get) are embedded as Option String; the Python
idiom `(d.get(k) or "")` becomes `(o.getD "")`.
-/

namespace PhpipamSync

/-- Lookup in an association list, first binding wins (Python dict lookup,
on lists built by `dictInsert` keys are unique anyway). -/
def dictGet? {α : Type} (d : List (String × α)) (k : String) : Option α :=
  match d with
  | [] => none
  | p :: rest => if p.1 = k then some p.2 else dictGet? rest k

/-- Python dict assignment `d[k] = v`: replace in place when present,
append otherwise. -/
def dictInsert {α : Type} (d : List (String × α)) (k : String) (v : α) :
    List (String × α) :=
  match d with
  | [] => [(k, v)]
  | p :: rest => if p.1 = k then (k, v) :: rest else p :: dictInsert rest k v

/-- Python str.strip(): drop leading and trailing whitespace.  Defined over
the character list so concrete instances evaluate in the kernel (the
library String.trim is identical in effect but does not reduce). -/
def pyStrip (s : String) : String :=
  ⟨((s.data.dropWhile Char.isWhitespace).reverse.dropWhile Char.isWhitespace).reverse⟩

/-- Python str.lower(), character by character. -/
def pyLower (s : String) : String :=
  ⟨s.data.map Char.toLower⟩

theorem dictGet?_dictInsert_self {α : Type} (d : List (String × α))
    (k : String) (v : α) : dictGet? (dictInsert d k v) k = some v := by
  induction d with
  | nil => simp [dictInsert, dictGet?]
  | cons p rest ih =>
    by_cases h : p.1 = k
    · simp [dictInsert, dictGet?, h]
    · simp [dictInsert, dictGet?, h, ih]

theorem dictGet?_dictInsert_ne {α : Type} (d : List (String × α))
    (k k2 : String) (v : α) (h : k ≠ k2) :
    dictGet? (dictInsert d k v) k2 = dictGet? d k2 := by
  induction d with
  | nil => simp [dictInsert, dictGet?, h]
  | cons p rest ih =>
    by_cases hp : p.1 = k
    · subst hp
      simp [dictInsert, dictGet?, h]
    · simp [dictInsert, dictGet?, hp, ih]

theorem map_fst_dictInsert {α : Type} (d : List (String × α))
    (k : String) (v : α) :
    (dictInsert d k v).map Prod.fst =
      if k ∈ d.map Prod.fst then d.map Prod.fst
      else d.map Prod.fst ++ [k] := by
  induction d with
  | nil => simp [dictInsert]
  | cons p rest ih =>
    by_cases hp : p.1 = k
    · simp [dictInsert, hp]
    · have hne : ¬ k = p.1 := fun hc => hp hc.symm
      by_cases hk : k ∈ rest.map Prod.fst <;>
        simp [dictInsert, hp, hne, hk, ih]

theorem nodup_map_fst_dictInsert {α : Type} (d : List (String × α))
    (k : String) (v : α) (h : (d.map Prod.fst).Nodup) :
    ((dictInsert d k v).map Prod.fst).Nodup := by
  rw [map_fst_dictInsert]
  by_cases hk : k ∈ d.map Prod.fst
  · simpa [hk]
  · simp only [hk, if_false]
    refine List.Nodup.append h (List.nodup_singleton k) ?_
    intro a ha hb
    rw [List.mem_singleton] at hb
    exact hk (hb ▸ ha)

theorem mem_dictInsert {α : Type} {d : List (String × α)} {k : String}
    {v : α} {p : String × α} (h : p ∈ dictInsert d k v) :
    p = (k, v) ∨ p ∈ d := by
  induction d with
  | nil => simpa [dictInsert] using h
  | cons q rest ih =>
    by_cases hq : q.1 = k
    · simp only [dictInsert, hq, if_pos] at h
      rcases List.mem_cons.mp h with h1 | h1
      · exact Or.inl h1
      · exact Or.inr (List.mem_cons_of_mem _ h1)
    · simp only [dictInsert, hq, if_neg, not_false_iff] at h
      rcases List.mem_cons.mp h with h1 | h1
      · exact Or.inr (h1 ▸ List.mem_cons_self q rest)
      · rcases ih h1 with h2 | h2
        · exact Or.inl h2
        · exact Or.inr (List.mem_cons_of_mem _ h2)

theorem dictGet?_eq_some_mem {α : Type} {d : List (String × α)} {k : String}
    {v : α} (h : dictGet? d k = some v) : (k, v) ∈ d := by
  induction d with
  | nil => simp [dictGet?] at h
  | cons p rest ih =>
    by_cases hp : p.1 = k
    · simp only [dictGet?, hp, if_pos, Option.some.injEq] at h
      subst hp
      subst h
      exact List.mem_cons_self p rest
    · simp only [dictGet?, hp, if_neg, not_false_iff] at h
      exact List.mem_cons_of_mem _ (ih h)

theorem dictGet?_eq_none_of_keys {α : Type} {d : List (String × α)}
    {k : String} (h : ∀ p ∈ d, p.1 ≠ k) : dictGet? d k = none := by
  induction d with
  | nil => simp [dictGet?]
  | cons p rest ih =>
    have hp : p.1 ≠ k := h p (List.mem_cons_self p rest)
    simp only [dictGet?, hp, if_neg, not_false_iff]
    exact ih fun q hq => h q (List.mem_cons_of_mem _ hq)

theorem dictGet?_append {α : Type} (a b : List (String × α)) (k : String) :
    dictGet? (a ++ b) k =
      match dictGet? a k with
      | some v => some v
      | none => dictGet? b k := by
  induction a with
  | nil => simp [dictGet?]
  | cons p rest ih =>
    by_cases hp : p.1 = k <;> simp [dictGet?, hp, ih]

theorem dictGet?_map_value {α β : Type} (g : α → β) (d : List (String × α))
    (k : String) :
    dictGet? (d.map (fun p => (p.1, g p.2))) k = (dictGet? d k).map g := by
  induction d with
  | nil => simp [dictGet?]
  | cons p rest ih =>
    by_cases hp : p.1 = k <;> simp [dictGet?, hp, ih]

/-- A merged host entry: the value stored by merge_sources under each IP key,
`{"ip": ip, "mac": mac, "hostname": hostname}` with all fields normalized
(trimmed, never null). -/
structure HostInfo where
  ip : String
  mac : String
  hostname : String
deriving DecidableEq, Repr

/-- A phpIPAM address record as consumed by the sync loop: `id` is read with
mandatory indexing (`current["id"]`), while `ip`, `mac` and `hostname` are
read with `.get` and may be absent, hence Option. -/
structure Addr where
  id : String
  ip : Option String
  mac : Option String
  hostname : Option String
deriving DecidableEq, Repr

/-- The run summary dict `{"created": _, "updated": _, "skipped": _}`.
The Python counters start at 0 and are only incremented, so Nat is exact
(non-negativity is structural). -/
structure Summary where
  created : Nat
  updated : Nat
  skipped : Nat
deriving DecidableEq, Repr

/-- A write issued against phpIPAM.  `create` records the payload of
create_address (`{subnetId, ip, mac, hostname}`); `update` records the URL
id and the payload of update_address, which carries only `{mac, hostname}`
(ip and subnet are not re-sent). -/
inductive WriteAction where
  | create (subnetId ip mac hostname : String)
  | update (id mac hostname : String)
deriving DecidableEq, Repr

/-- One iteration of the per-IP loop in sync (source lines 216-242): decide
create / update / skip for one host entry, extending the summary counters
and the list of writes issued so far. -/
def syncStep (existing : List (String × Addr)) (subnet_id : String)
    (acc : Summary × List WriteAction) (e : String × HostInfo) :
    Summary × List WriteAction :=
  match dictGet? existing e.1 with
  | none =>
      ({ acc.1 with created := acc.1.created + 1 },
        acc.2 ++ [WriteAction.create subnet_id e.2.ip e.2.mac e.2.hostname])
  | some current =>
      if current.mac ≠ some e.2.mac ∨ current.hostname ≠ some e.2.hostname then
        ({ acc.1 with updated := acc.1.updated + 1 },
          acc.2 ++ [WriteAction.update current.id e.2.mac e.2.hostname])
      else
        ({ acc.1 with skipped := acc.1.skipped + 1 }, acc.2)

/-- The decision part of sync (source lines 189 and 216-250): given the
merged hosts dict and the existing-records dict, fold the per-IP loop from
the zero summary, returning the final summary and the writes issued in
order.  Network fetches feeding the two inputs are modelled upstream. -/
def sync (hosts : List (String × HostInfo)) (existing : List (String × Addr))
    (subnet_id : String) : Summary × List WriteAction :=
  hosts.foldl (syncStep existing subnet_id)
    ({ created := 0, updated := 0, skipped := 0 }, [])

/-- The three-way outcome of one iteration of the sync loop. -/
inductive Decision where
  | create
  | update
  | skip
deriving DecidableEq, Repr

/-- Which branch of the sync loop fires for one host entry. -/
def decision (existing : List (String × Addr)) (e : String × HostInfo) :
    Decision :=
  match dictGet? existing e.1 with
  | none => Decision.create
  | some current =>
      if current.mac ≠ some e.2.mac ∨ current.hostname ≠ some e.2.hostname then
        Decision.update
      else
        Decision.skip

/-- The writes one host entry contributes inside the sync loop. -/
def writesOf (existing : List (String × Addr)) (subnet_id : String)
    (e : String × HostInfo) : List WriteAction :=
  match dictGet? existing e.1 with
  | none => [WriteAction.create subnet_id e.2.ip e.2.mac e.2.hostname]
  | some current =>
      if current.mac ≠ some e.2.mac ∨ current.hostname ≠ some e.2.hostname then
        [WriteAction.update current.id e.2.mac e.2.hostname]
      else
        []

theorem syncStep_eq (existing : List (String × Addr)) (sid : String)
    (s : Summary) (ws : List WriteAction) (e : String × HostInfo) :
    syncStep existing sid (s, ws) e =
      ((match decision existing e with
        | Decision.create => { s with created := s.created + 1 }
        | Decision.update => { s with updated := s.updated + 1 }
        | Decision.skip => { s with skipped := s.skipped + 1 }),
        ws ++ writesOf existing sid e) := by
  unfold syncStep decision writesOf
  cases h : dictGet? existing e.1 with
  | none => simp
  | some current =>
    by_cases hd : current.mac ≠ some e.2.mac ∨ current.hostname ≠ some e.2.hostname
    · simp [hd]
    · simp [hd]

theorem sync_foldl (existing : List (String × Addr)) (sid : String)
    (hosts : List (String × HostInfo)) :
    ∀ (s : Summary) (ws : List WriteAction),
      hosts.foldl (syncStep existing sid) (s, ws) =
        ({ created := s.created +
              (hosts.filter (fun e => decide (decision existing e = Decision.create))).length,
           updated := s.updated +
              (hosts.filter (fun e => decide (decision existing e = Decision.update))).length,
           skipped := s.skipped +
              (hosts.filter (fun e => decide (decision existing e = Decision.skip))).length },
          ws ++ hosts.flatMap (writesOf existing sid)) := by
  induction hosts with
  | nil => intro s ws; simp
  | cons e rest ih =>
    intro s ws
    rw [List.foldl_cons, syncStep_eq, ih]
    cases hd : decision existing e <;>
      simp [List.filter_cons, hd, List.flatMap_cons] <;> omega

theorem sync_eq (hosts : List (String × HostInfo))
    (existing : List (String × Addr)) (sid : String) :
    sync hosts existing sid =
      ({ created :=
            (hosts.filter (fun e => decide (decision existing e = Decision.create))).length,
         updated :=
            (hosts.filter (fun e => decide (decision existing e = Decision.update))).length,
         skipped :=
            (hosts.filter (fun e => decide (decision existing e = Decision.skip))).length },
        hosts.flatMap (writesOf existing sid)) := by
  unfold sync
  rw [sync_foldl]
  simp

/-- One DHCP lease row as returned by the OPNsense searchLease endpoint;
fields are read with dict.get and may be absent or null. -/
structure LeaseEntry where
  address : Option String
  mac : Option String
  hostname : Option String
deriving DecidableEq, Repr

/-- One ARP table row as returned by the OPNsense getArp endpoint. -/
structure ArpEntry where
  ip : Option String
  mac : Option String
deriving DecidableEq, Repr

/-- merge_sources (source lines 75-96): populate the dict from ARP rows
(hostname always empty), then overwrite with lease rows; rows whose ip is
missing, null or empty after stripping are skipped.  The Python idiom
`(row.get(k) or "").strip()` is `pyStrip (o.getD "")`. -/
def merge_sources (leases : List LeaseEntry) (arp_entries : List ArpEntry) :
    List (String × HostInfo) :=
  let hosts : List (String × HostInfo) := []
  let hosts := arp_entries.foldl (fun hosts entry =>
    let ip := pyStrip (entry.ip.getD "")
    let mac := pyStrip (entry.mac.getD "")
    if ip ≠ "" then dictInsert hosts ip { ip := ip, mac := mac, hostname := "" }
    else hosts) hosts
  let hosts := leases.foldl (fun hosts lease =>
    let ip := pyStrip (lease.address.getD "")
    let mac := pyStrip (lease.mac.getD "")
    let hostname := pyStrip (lease.hostname.getD "")
    if ip ≠ "" then dictInsert hosts ip { ip := ip, mac := mac, hostname := hostname }
    else hosts) hosts
  hosts

/-- The normalized ip key a lease row would be stored under. -/
def leaseKey (l : LeaseEntry) : String := pyStrip (l.address.getD "")

/-- The merged value a lease row produces. -/
def leaseVal (l : LeaseEntry) : HostInfo :=
  { ip := pyStrip (l.address.getD ""), mac := pyStrip (l.mac.getD ""),
    hostname := pyStrip (l.hostname.getD "") }

/-- The normalized ip key an ARP row would be stored under. -/
def arpKey (a : ArpEntry) : String := pyStrip (a.ip.getD "")

/-- The merged value an ARP row produces: hostname always empty. -/
def arpVal (a : ArpEntry) : HostInfo :=
  { ip := pyStrip (a.ip.getD ""), mac := pyStrip (a.mac.getD ""), hostname := "" }

theorem foldl_preserves {α β : Type} (P : β → Prop) (f : β → α → β)
    (hstep : ∀ b a, P b → P (f b a)) :
    ∀ (l : List α) (b : β), P b → P (l.foldl f b) := by
  intro l
  induction l with
  | nil => intro b hb; exact hb
  | cons a rest ih =>
    intro b hb
    exact ih (f b a) (hstep b a hb)

theorem foldl_insert_get_no_match {α : Type} (keyOf : α → String)
    (valOf : α → HostInfo)
    (f : List (String × HostInfo) → α → List (String × HostInfo))
    (hf : ∀ d a, f d a =
      if keyOf a ≠ "" then dictInsert d (keyOf a) (valOf a) else d)
    (l : List α) (k : String) (h : ∀ a ∈ l, keyOf a ≠ k) :
    ∀ init, dictGet? (l.foldl f init) k = dictGet? init k := by
  induction l with
  | nil => intro init; rfl
  | cons a rest ih =>
    intro init
    have hrest : ∀ b ∈ rest, keyOf b ≠ k :=
      fun b hb => h b (List.mem_cons_of_mem _ hb)
    rw [List.foldl_cons, ih hrest, hf]
    by_cases ha : keyOf a = ""
    · simp [ha]
    · have hak : keyOf a ≠ k := h a (List.mem_cons_self a rest)
      simp only [ha, ne_eq, not_false_iff, if_true]
      exact dictGet?_dictInsert_ne init (keyOf a) k (valOf a) hak

theorem foldl_insert_get_match {α : Type} (keyOf : α → String)
    (valOf : α → HostInfo)
    (f : List (String × HostInfo) → α → List (String × HostInfo))
    (hf : ∀ d a, f d a =
      if keyOf a ≠ "" then dictInsert d (keyOf a) (valOf a) else d)
    (l : List α) (k : String) (hk : k ≠ "") :
    (∃ a ∈ l, keyOf a = k) →
    ∀ init, ∃ a ∈ l, keyOf a = k ∧
      dictGet? (l.foldl f init) k = some (valOf a) := by
  induction l with
  | nil => rintro ⟨a, ha, _⟩; cases ha
  | cons a rest ih =>
    intro hex init
    by_cases hrest : ∃ b ∈ rest, keyOf b = k
    · obtain ⟨b, hb, hbk, hget⟩ := ih hrest (f init a)
      exact ⟨b, List.mem_cons_of_mem _ hb, hbk, by rw [List.foldl_cons]; exact hget⟩
    · have hak : keyOf a = k := by
        obtain ⟨c, hc, hck⟩ := hex
        rcases List.mem_cons.mp hc with h1 | h1
        · exact h1 ▸ hck
        · exact absurd ⟨c, h1, hck⟩ hrest
      have hnomatch : ∀ b ∈ rest, keyOf b ≠ k :=
        fun b hb hbk => hrest ⟨b, hb, hbk⟩
      refine ⟨a, List.mem_cons_self a rest, hak, ?_⟩
      rw [List.foldl_cons,
        foldl_insert_get_no_match keyOf valOf f hf rest k hnomatch, hf]
      have hne : keyOf a ≠ "" := hak ▸ hk
      simp only [hne, ne_eq, not_false_iff, if_true]
      rw [hak]
      exact dictGet?_dictInsert_self init k (valOf a)

theorem foldl_filter_id {α β : Type} (f : β → α → β) (p : α → Bool)
    (hid : ∀ b a, p a = false → f b a = b) :
    ∀ (l : List α) (b : β), (l.filter p).foldl f b = l.foldl f b := by
  intro l
  induction l with
  | nil => intro b; rfl
  | cons a rest ih =>
    intro b
    by_cases hp : p a = true
    · simp [List.filter_cons, hp, ih]
    · have hp2 : p a = false := by simpa using hp
      simp [List.filter_cons, hp2, ih, hid b a hp2]

/-- The structural invariant of the merged dict: keys are unique, every
value records its own key as ip, and no key is empty. -/
def MergeWf (d : List (String × HostInfo)) : Prop :=
  (d.map Prod.fst).Nodup ∧ ∀ p ∈ d, p.2.ip = p.1 ∧ p.1 ≠ ""

theorem mergeWf_insert (d : List (String × HostInfo)) (k : String)
    (v : HostInfo) (hd : MergeWf d) (hv : v.ip = k) (hk : k ≠ "") :
    MergeWf (dictInsert d k v) := by
  refine ⟨nodup_map_fst_dictInsert d k v hd.1, ?_⟩
  intro p hp
  rcases mem_dictInsert hp with h1 | h1
  · subst h1; exact ⟨hv, hk⟩
  · exact hd.2 p h1

theorem merge_sources_wf (leases : List LeaseEntry) (arp : List ArpEntry) :
    MergeWf (merge_sources leases arp) := by
  unfold merge_sources
  refine foldl_preserves MergeWf _ ?_ leases _
    (foldl_preserves MergeWf _ ?_ arp [] ⟨List.nodup_nil, by simp⟩)
  · intro d l hd
    by_cases h : pyStrip (l.address.getD "") = ""
    · simpa [h] using hd
    · have hins := mergeWf_insert d (pyStrip (l.address.getD ""))
        { ip := pyStrip (l.address.getD ""), mac := pyStrip (l.mac.getD ""),
          hostname := pyStrip (l.hostname.getD "") } hd rfl h
      simpa [h] using hins
  · intro d a hd
    by_cases h : pyStrip (a.ip.getD "") = ""
    · simpa [h] using hd
    · have hins := mergeWf_insert d (pyStrip (a.ip.getD ""))
        { ip := pyStrip (a.ip.getD ""), mac := pyStrip (a.mac.getD ""),
          hostname := "" } hd rfl h
      simpa [h] using hins

/-- The Python exception kinds the modelled helpers can raise. -/
inductive PyError where
  | httpError (status : Nat)
  | runtimeError (msg : String)
  | environmentError (msg : String)
  | valueError (msg : String)
deriving DecidableEq, Repr

/-- An HTTP response as seen by the helpers: status code plus parsed body. -/
structure HttpResponse (β : Type) where
  status : Nat
  body : β
deriving DecidableEq, Repr

/-- requests Response.raise_for_status: statuses 400-599 raise HTTPError,
everything else passes. -/
def raise_for_status (status : Nat) : Except PyError Unit :=
  if 400 ≤ status ∧ status < 600 then Except.error (PyError.httpError status)
  else Except.ok ()

/-- get_subnet_addresses (source lines 117-129), response processing: a 404
status returns the empty dict before raise_for_status runs; other error
statuses raise; otherwise the record list under the data field (empty when
data is null or missing, `data.get("data") or []`) is keyed by record ip,
skipping records whose ip is missing, null or empty (the Python truthiness
test `if addr.get("ip")`). -/
def get_subnet_addresses (resp : HttpResponse (Option (List Addr))) :
    Except PyError (List (String × Addr)) :=
  if resp.status = 404 then Except.ok []
  else
    match raise_for_status resp.status with
    | Except.error e => Except.error e
    | Except.ok _ =>
        let addresses := resp.body.getD []
        Except.ok (addresses.foldl
          (fun acc addr =>
            match addr.ip with
            | none => acc
            | some s => if s ≠ "" then dictInsert acc s addr else acc)
          [])

theorem get_subnet_addresses_2xx (st : Nat) (body : Option (List Addr))
    (h1 : 200 ≤ st) (h2 : st < 300) :
    get_subnet_addresses { status := st, body := body } =
      Except.ok ((body.getD []).foldl
        (fun acc addr =>
          match addr.ip with
          | none => acc
          | some s => if s ≠ "" then dictInsert acc s addr else acc)
        []) := by
  unfold get_subnet_addresses raise_for_status
  have h404 : ¬ st = 404 := by omega
  have hr : ¬ (400 ≤ st ∧ st < 600) := by omega
  simp [h404, hr]

/-- The data object inside a phpIPAM auth response; token read with .get. -/
structure TokenData where
  token : Option String
deriving DecidableEq, Repr

/-- The parsed JSON body of a phpIPAM auth response; the data field is read
with .get and an empty-dict default, so a missing data object acts as an
object with no token. -/
structure AuthBody where
  data : Option TokenData
deriving DecidableEq, Repr

/-- phpipam_authenticate (source lines 103-114), response processing: after
raise_for_status, the token is read as `data.get("data", {}).get("token")`
(Option.bind); a missing, null or empty token (`if not token`) raises a
RuntimeError, otherwise the token is returned. -/
def phpipam_authenticate (resp : HttpResponse AuthBody) :
    Except PyError String :=
  match raise_for_status resp.status with
  | Except.error e => Except.error e
  | Except.ok _ =>
      match resp.body.data.bind TokenData.token with
      | none => Except.error (PyError.runtimeError
          "phpIPAM authentication failed: no token in response.")
      | some t =>
          if t = "" then
            Except.error (PyError.runtimeError
              "phpIPAM authentication failed: no token in response.")
          else Except.ok t

/-- Claim C2: merging produces at most one canonical host per distinct IP
(the key list of the merged dict has no duplicates); an IP present among
the leases gets lease-derived mac and hostname (the ARP fields for that IP
are discarded: the stored value is leaseVal of a lease row, which mentions
no ARP data); an IP seen only in ARP gets the ARP-derived mac and an empty
hostname. -/
theorem c2_lease_precedence (leases : List LeaseEntry) (arp : List ArpEntry)
    (ip : String) (hip : ip ≠ "") :
    ((merge_sources leases arp).map Prod.fst).Nodup ∧
    ((∃ l ∈ leases, leaseKey l = ip) →
      ∃ l ∈ leases, leaseKey l = ip ∧
        dictGet? (merge_sources leases arp) ip = some (leaseVal l)) ∧
    ((∀ l ∈ leases, leaseKey l ≠ ip) → (∃ a ∈ arp, arpKey a = ip) →
      ∃ a ∈ arp, arpKey a = ip ∧
        dictGet? (merge_sources leases arp) ip = some (arpVal a)) := by
  refine ⟨(merge_sources_wf leases arp).1, ?_, ?_⟩
  · intro hex
    exact foldl_insert_get_match leaseKey leaseVal
      (fun d l => if leaseKey l ≠ "" then dictInsert d (leaseKey l) (leaseVal l) else d)
      (fun d l => rfl) leases ip hip hex
      (arp.foldl
        (fun d a => if arpKey a ≠ "" then dictInsert d (arpKey a) (arpVal a) else d) [])
  · intro hnol hexa
    have h1 : dictGet? (merge_sources leases arp) ip =
        dictGet?
          (arp.foldl
            (fun d a => if arpKey a ≠ "" then dictInsert d (arpKey a) (arpVal a) else d) [])
          ip :=
      foldl_insert_get_no_match leaseKey leaseVal
        (fun d l => if leaseKey l ≠ "" then dictInsert d (leaseKey l) (leaseVal l) else d)
        (fun d l => rfl) leases ip hnol
        (arp.foldl
          (fun d a => if arpKey a ≠ "" then dictInsert d (arpKey a) (arpVal a) else d) [])
    obtain ⟨a, ha, hak, hget⟩ := foldl_insert_get_match arpKey arpVal
      (fun d a => if arpKey a ≠ "" then dictInsert d (arpKey a) (arpVal a) else d)
      (fun d a => rfl) arp ip hip hexa []
    exact ⟨a, ha, hak, h1.trans hget⟩

/-- Closed instance of c2_lease_precedence: with a lease and an ARP row for
the same IP, the merged entry carries the lease mac and hostname. -/
theorem c2_lease_precedence_witness :
    dictGet?
        (merge_sources
          [{ address := some "10.0.0.1", mac := some "aa:bb:cc:dd:ee:ff",
             hostname := some "myhost" }]
          [{ ip := some "10.0.0.1", mac := some "11:22:33:44:55:66" }])
        "10.0.0.1" =
      some { ip := "10.0.0.1", mac := "aa:bb:cc:dd:ee:ff", hostname := "myhost" } := by
  have h := (c2_lease_precedence
      [{ address := some "10.0.0.1", mac := some "aa:bb:cc:dd:ee:ff",
         hostname := some "myhost" }]
      [{ ip := some "10.0.0.1", mac := some "11:22:33:44:55:66" }]
      "10.0.0.1" (by decide)).2.1
    ⟨{ address := some "10.0.0.1", mac := some "aa:bb:cc:dd:ee:ff",
       hostname := some "myhost" }, List.mem_singleton.mpr rfl, by decide⟩
  obtain ⟨l, hl, hk, hget⟩ := h
  rw [List.mem_singleton] at hl
  subst hl
  rw [hget]
  decide

/-- Claim C5: observations whose ip is missing, null, or empty after
stripping contribute no entry to the canonical mapping (dropping them first
changes nothing), never raise (merge_sources is total), and merging two
empty lists yields the empty mapping; moreover every key of the produced
mapping is a non-empty string. -/
theorem c5_empty_ip_dropped (leases : List LeaseEntry) (arp : List ArpEntry) :
    merge_sources ([] : List LeaseEntry) ([] : List ArpEntry) = [] ∧
    merge_sources (leases.filter (fun l => !(leaseKey l == "")))
        (arp.filter (fun a => !(arpKey a == ""))) = merge_sources leases arp ∧
    (merge_sources leases arp).all (fun p => !(p.1 == "")) = true := by
  refine ⟨rfl, ?_, ?_⟩
  · show (leases.filter (fun l => !(leaseKey l == ""))).foldl
        (fun d l => if leaseKey l ≠ "" then dictInsert d (leaseKey l) (leaseVal l) else d)
        ((arp.filter (fun a => !(arpKey a == ""))).foldl
          (fun d a => if arpKey a ≠ "" then dictInsert d (arpKey a) (arpVal a) else d) []) =
      leases.foldl
        (fun d l => if leaseKey l ≠ "" then dictInsert d (leaseKey l) (leaseVal l) else d)
        (arp.foldl
          (fun d a => if arpKey a ≠ "" then dictInsert d (arpKey a) (arpVal a) else d) [])
    have hidA : ∀ (d : List (String × HostInfo)) (a : ArpEntry),
        (!(arpKey a == "")) = false →
        (if arpKey a ≠ "" then dictInsert d (arpKey a) (arpVal a) else d) = d := by
      intro d a ha
      have : arpKey a = "" := by simpa using ha
      simp [this]
    have hidL : ∀ (d : List (String × HostInfo)) (l : LeaseEntry),
        (!(leaseKey l == "")) = false →
        (if leaseKey l ≠ "" then dictInsert d (leaseKey l) (leaseVal l) else d) = d := by
      intro d l hl
      have : leaseKey l = "" := by simpa using hl
      simp [this]
    rw [foldl_filter_id _ _ hidA arp, foldl_filter_id _ _ hidL leases]
  · rw [List.all_eq_true]
    intro p hp
    have h := (merge_sources_wf leases arp).2 p hp
    simpa using h.2

theorem filter_decision_length {α : Type} (l : List α) (f : α → Decision) :
    (l.filter (fun e => decide (f e = Decision.create))).length +
        (l.filter (fun e => decide (f e = Decision.update))).length +
        (l.filter (fun e => decide (f e = Decision.skip))).length = l.length := by
  induction l with
  | nil => simp
  | cons e rest ih =>
    cases hd : f e <;> simp [List.filter_cons, hd] <;> omega

/-- Claim C1: per IP the sync loop performs exactly one of three actions.
If the IP is absent from the existing mapping, it issues exactly one
creation write carrying subnet id, ip, mac and hostname and increments
created by one; if a record exists and its mac or hostname differs from
the host values (exact inequality on the optional record fields, so a
missing record field also counts as different), it issues exactly one
update write to that record id carrying only mac and hostname, and
increments updated by one; otherwise it issues no write and increments
skipped by one.  The three cases are exhaustive and mutually exclusive. -/
theorem c1_decision_cases (existing : List (String × Addr)) (sid : String)
    (s : Summary) (ws : List WriteAction) (ip : String) (hi : HostInfo) :
    (dictGet? existing ip = none →
      syncStep existing sid (s, ws) (ip, hi) =
        ({ s with created := s.created + 1 },
          ws ++ [WriteAction.create sid hi.ip hi.mac hi.hostname])) ∧
    (∀ cur, dictGet? existing ip = some cur →
      ((cur.mac ≠ some hi.mac ∨ cur.hostname ≠ some hi.hostname) →
        syncStep existing sid (s, ws) (ip, hi) =
          ({ s with updated := s.updated + 1 },
            ws ++ [WriteAction.update cur.id hi.mac hi.hostname])) ∧
      (cur.mac = some hi.mac → cur.hostname = some hi.hostname →
        syncStep existing sid (s, ws) (ip, hi) =
          ({ s with skipped := s.skipped + 1 }, ws))) := by
  constructor
  · intro h
    unfold syncStep
    simp [h]
  · intro cur hcur
    constructor
    · intro hd
      unfold syncStep
      simp [hcur, hd]
    · intro hm hh
      unfold syncStep
      simp [hcur, hm, hh]

/-- Closed instance of c1_decision_cases: with no existing record for
10.0.0.1, the step issues exactly the one create write and bumps created. -/
theorem c1_decision_cases_witness :
    syncStep [] "3" ({ created := 0, updated := 0, skipped := 0 }, [])
        ("10.0.0.1", { ip := "10.0.0.1", mac := "aa", hostname := "h1" }) =
      ({ created := 1, updated := 0, skipped := 0 },
        [WriteAction.create "3" "10.0.0.1" "aa" "h1"]) := by
  have h := (c1_decision_cases [] "3"
      { created := 0, updated := 0, skipped := 0 } [] "10.0.0.1"
      { ip := "10.0.0.1", mac := "aa", hostname := "h1" }).1 rfl
  simpa using h

/-- Claim C4: when the reconciliation pass completes, the summary counts are
non-negative (structurally, as Nat) and created + updated + skipped equals
the number of canonical host entries: exactly one decision per IP. -/
theorem c4_counts_partition (hosts : List (String × HostInfo))
    (existing : List (String × Addr)) (sid : String) :
    (sync hosts existing sid).1.created + (sync hosts existing sid).1.updated +
        (sync hosts existing sid).1.skipped = hosts.length := by
  rw [sync_eq]
  exact filter_decision_length hosts (decision existing)

theorem flatMap_singleton_eq_map {α β : Type} (l : List α) (f : α → β) :
    l.flatMap (fun a => [f a]) = l.map f := by
  induction l with
  | nil => rfl
  | cons a rest ih => simp [ih]

/-- Claim C6: an inventory-fetch response with status 404 yields the empty
existing mapping instead of an error, and the sync pass over the empty
existing mapping decides every canonical host as a create: the summary
counts every entry under created and the writes are exactly one create,
carrying subnet id, ip, mac and hostname, per host in order. -/
theorem c6_notfound_all_create (body : Option (List Addr))
    (hosts : List (String × HostInfo)) (sid : String) :
    get_subnet_addresses { status := 404, body := body } = Except.ok [] ∧
    sync hosts [] sid =
      ({ created := hosts.length, updated := 0, skipped := 0 },
        hosts.map (fun e => WriteAction.create sid e.2.ip e.2.mac e.2.hostname)) := by
  refine ⟨rfl, ?_⟩
  rw [sync_eq]
  have hfun : writesOf ([] : List (String × Addr)) sid =
      fun e : String × HostInfo =>
        [WriteAction.create sid e.2.ip e.2.mac e.2.hostname] :=
    funext fun e => rfl
  have hdec : ∀ e : String × HostInfo, decision [] e = Decision.create :=
    fun e => rfl
  simp [hdec, hfun, flatMap_singleton_eq_map]

theorem foldl_preserves_mem {α β : Type} (P : β → Prop) (f : β → α → β) :
    ∀ (l : List α), (∀ b, ∀ a ∈ l, P b → P (f b a)) →
      ∀ b, P b → P (l.foldl f b) := by
  intro l
  induction l with
  | nil => intro _ b hb; exact hb
  | cons a rest ih =>
    intro hstep b hb
    exact ih (fun c x hx hc => hstep c x (List.mem_cons_of_mem _ hx) hc)
      (f b a) (hstep b a (List.mem_cons_self a rest) hb)

/-- Claim C9: in the inventory response, a null data field acts as an empty
record list; records whose ip is missing, null or empty are excluded from
the mapping (dropping them first changes nothing); and a canonical host
whose IP appears on no record at all is treated as absent and decided as a
create. -/
theorem c9_bad_ip_records_excluded :
    (∀ st : Nat, 200 ≤ st → st < 300 →
      get_subnet_addresses { status := st, body := none } = Except.ok []) ∧
    (∀ (st : Nat) (addrs : List Addr), 200 ≤ st → st < 300 →
      get_subnet_addresses
          { status := st,
            body := some (addrs.filter (fun a => !(a.ip == none) && !(a.ip == some ""))) } =
        get_subnet_addresses { status := st, body := some addrs }) ∧
    (∀ (st : Nat) (addrs : List Addr) (res : List (String × Addr))
        (ip : String) (hi : HostInfo), 200 ≤ st → st < 300 →
      get_subnet_addresses { status := st, body := some addrs } =
        Except.ok res →
      (∀ a ∈ addrs, a.ip ≠ some ip) →
      decision res (ip, hi) = Decision.create) := by
  refine ⟨?_, ?_, ?_⟩
  · intro st h1 h2
    rw [get_subnet_addresses_2xx st none h1 h2]
    rfl
  · intro st addrs h1 h2
    rw [get_subnet_addresses_2xx st _ h1 h2, get_subnet_addresses_2xx st _ h1 h2]
    have hid : ∀ (acc : List (String × Addr)) (a : Addr),
        (!(a.ip == none) && !(a.ip == some "")) = false →
        (match a.ip with
          | none => acc
          | some s => if s ≠ "" then dictInsert acc s a else acc) = acc := by
      intro acc a ha
      cases hip : a.ip with
      | none => rfl
      | some s =>
        rw [hip] at ha
        have hs : s = "" := by
          by_cases h : s = ""
          · exact h
          · simp [h] at ha
        simp [hs]
    simp only [Option.getD_some]
    rw [foldl_filter_id _ _ hid addrs]
  · intro st addrs res ip hi h1 h2 hres hnomatch
    rw [get_subnet_addresses_2xx st _ h1 h2] at hres
    have hres2 := Except.ok.inj hres
    have hkeys : ∀ p ∈ res, p.1 ≠ ip := by
      rw [← hres2]
      simp only [Option.getD_some]
      refine foldl_preserves_mem (fun acc : List (String × Addr) => ∀ p ∈ acc, p.1 ≠ ip) _ addrs
        ?_ [] (by simp)
      intro acc a ha hacc
      cases hip : a.ip with
      | none => exact hacc
      | some s =>
        by_cases hs : s = ""
        · simpa [hs] using hacc
        · simp only [ne_eq, hs, not_false_iff, if_true]
          intro p hp
          rcases mem_dictInsert hp with hh | hh
          · have hne : a.ip ≠ some ip := hnomatch a ha
            rw [hip, ne_eq, Option.some.injEq] at hne
            rw [hh]
            exact hne
          · exact hacc p hh
    unfold decision
    rw [dictGet?_eq_none_of_keys hkeys]

theorem phpipam_authenticate_2xx (resp : HttpResponse AuthBody)
    (h1 : 200 ≤ resp.status) (h2 : resp.status < 300) :
    phpipam_authenticate resp =
      match resp.body.data.bind TokenData.token with
      | none => Except.error (PyError.runtimeError
          "phpIPAM authentication failed: no token in response.")
      | some t =>
          if t = "" then
            Except.error (PyError.runtimeError
              "phpIPAM authentication failed: no token in response.")
          else Except.ok t := by
  unfold phpipam_authenticate raise_for_status
  have hr : ¬ (400 ≤ resp.status ∧ resp.status < 600) := by omega
  simp [hr]

/-- Counterexample to claim C7 as stated: the 2xx response whose body is
data: (token: "") does contain a token under data.token, yet the
authentication step raises the RuntimeError instead of returning it, so
raising is not equivalent to absence of a token. -/
theorem c7_counterexample_empty_token :
    ({ status := 200, body := { data := some { token := some "" } } } :
          HttpResponse AuthBody).body.data.bind TokenData.token = some "" ∧
    phpipam_authenticate
        { status := 200, body := { data := some { token := some "" } } } =
      Except.error (PyError.runtimeError
        "phpIPAM authentication failed: no token in response.") :=
  ⟨rfl, rfl⟩

/-- Claim C7 amended: for every 2xx authentication response, the step
returns a token exactly when the body holds a NON-EMPTY token under
data.token; when the token is missing, null or empty it raises the
distinct RuntimeError that aborts the run. -/
theorem c7_token_required (resp : HttpResponse AuthBody)
    (h1 : 200 ≤ resp.status) (h2 : resp.status < 300) :
    (∀ t, phpipam_authenticate resp = Except.ok t ↔
      (resp.body.data.bind TokenData.token = some t ∧ t ≠ "")) ∧
    ((resp.body.data.bind TokenData.token = none ∨
        resp.body.data.bind TokenData.token = some "") →
      phpipam_authenticate resp = Except.error (PyError.runtimeError
        "phpIPAM authentication failed: no token in response.")) := by
  rw [phpipam_authenticate_2xx resp h1 h2]
  constructor
  · intro t
    cases htok : resp.body.data.bind TokenData.token with
    | none => simp
    | some s =>
      by_cases hs : s = ""
      · subst hs
        simp only [if_pos rfl]
        constructor
        · intro h; cases h
        · rintro ⟨hst, ht⟩
          exact absurd (Option.some.inj hst).symm ht
      · simp only [if_neg hs]
        constructor
        · intro h
          have hts : s = t := Except.ok.inj h
          subst hts
          exact ⟨rfl, hs⟩
        · rintro ⟨hst, ht⟩
          rw [Option.some.inj hst]
  · intro h
    rcases h with h | h <;> simp [h]

/-- Closed instance of c7_token_required: a 2xx response with a non-empty
token under data.token authenticates and returns that token. -/
theorem c7_token_required_witness :
    phpipam_authenticate
        { status := 200, body := { data := some { token := some "abc" } } } =
      Except.ok "abc" :=
  ((c7_token_required
      { status := 200, body := { data := some { token := some "abc" } } }
      (by decide) (by decide)).1 "abc").mpr ⟨rfl, by decide⟩

/-- The process environment, os.environ: a partial map from variable names
to raw string values. -/
def Env : Type := String → Option String

/-- get_env (source lines 17-22): strip the value of a required variable,
raising EnvironmentError when it is unset or blank. -/
def get_env (env : Env) (name : String) : Except PyError String :=
  let value := pyStrip ((env name).getD "")
  if value = "" then
    Except.error (PyError.environmentError
      ("Required environment variable " ++ name ++ " is not set."))
  else Except.ok value

/-- The configuration dict produced by load_config; verify_ssl is either a
boolean or a CA-bundle path. -/
structure Config where
  opnsense_host : String
  opnsense_key : String
  opnsense_secret : String
  opnsense_verify_ssl : Sum Bool String
  phpipam_host : String
  phpipam_scheme : String
  phpipam_app_id : String
  phpipam_app_code : String
  phpipam_subnet_id : String
deriving DecidableEq, Repr

/-- load_config (source lines 25-47).  The verify-ssl toggle and the scheme
are computed first (both have defaults); an invalid scheme raises
ValueError before any required variable is read; then the seven required
variables are read in dict-literal order and the first missing or blank one
raises EnvironmentError.  os.path.isfile is passed in as isfile; no network
access occurs anywhere in this function. -/
def load_config (env : Env) (isfile : String → Bool) : Except PyError Config :=
  let verify_ssl_raw := pyLower (pyStrip ((env "OPNSENSE_VERIFY_SSL").getD "true"))
  let verify_ssl : Sum Bool String :=
    if verify_ssl_raw ∉ (["false", "0", "no"] : List String) ∧
        isfile verify_ssl_raw then
      Sum.inr verify_ssl_raw
    else
      Sum.inl (verify_ssl_raw ∉ (["false", "0", "no"] : List String))
  let phpipam_scheme := pyLower (pyStrip ((env "PHPIPAM_SCHEME").getD "https"))
  if phpipam_scheme ∉ (["http", "https"] : List String) then
    Except.error (PyError.valueError "PHPIPAM_SCHEME must be http or https.")
  else
    match get_env env "OPNSENSE_HOST" with
    | Except.error e => Except.error e
    | Except.ok opnsense_host =>
    match get_env env "OPNSENSE_KEY" with
    | Except.error e => Except.error e
    | Except.ok opnsense_key =>
    match get_env env "OPNSENSE_SECRET" with
    | Except.error e => Except.error e
    | Except.ok opnsense_secret =>
    match get_env env "PHPIPAM_HOST" with
    | Except.error e => Except.error e
    | Except.ok phpipam_host =>
    match get_env env "PHPIPAM_APP_ID" with
    | Except.error e => Except.error e
    | Except.ok phpipam_app_id =>
    match get_env env "PHPIPAM_APP_CODE" with
    | Except.error e => Except.error e
    | Except.ok phpipam_app_code =>
    match get_env env "PHPIPAM_SUBNET_ID" with
    | Except.error e => Except.error e
    | Except.ok phpipam_subnet_id =>
      Except.ok
        { opnsense_host := opnsense_host, opnsense_key := opnsense_key,
          opnsense_secret := opnsense_secret,
          opnsense_verify_ssl := verify_ssl,
          phpipam_host := phpipam_host, phpipam_scheme := phpipam_scheme,
          phpipam_app_id := phpipam_app_id,
          phpipam_app_code := phpipam_app_code,
          phpipam_subnet_id := phpipam_subnet_id }

/-- The observable outcome of main (source lines 257-268): a caught
EnvironmentError is logged and the process exits with status 1; any other
raised error propagates uncaught (the interpreter then terminates with a
traceback and a non-zero status, but not through the handled path); on
success the sync runs with the loaded configuration.  Network activity
happens only inside sync, i.e. only in the synced outcome. -/
inductive MainResult where
  | exited (code : Nat) (loggedError : String)
  | uncaught (e : PyError)
  | synced (config : Config)
deriving DecidableEq, Repr

/-- main (source lines 257-268): try load_config, catching only
EnvironmentError. -/
def main (env : Env) (isfile : String → Bool) : MainResult :=
  match load_config env isfile with
  | Except.error (PyError.environmentError msg) => MainResult.exited 1 msg
  | Except.error e => MainResult.uncaught e
  | Except.ok config => MainResult.synced config

/-- The seven required environment variables, in the order load_config
reads them. -/
def requiredEnvVars : List String :=
  ["OPNSENSE_HOST", "OPNSENSE_KEY", "OPNSENSE_SECRET", "PHPIPAM_HOST",
   "PHPIPAM_APP_ID", "PHPIPAM_APP_CODE", "PHPIPAM_SUBNET_ID"]

theorem load_config_spec (env : Env) (isfile : String → Bool)
    (hscheme : pyLower (pyStrip ((env "PHPIPAM_SCHEME").getD "https")) = "http" ∨
      pyLower (pyStrip ((env "PHPIPAM_SCHEME").getD "https")) = "https") :
    (∃ name, name ∈ requiredEnvVars ∧ pyStrip ((env name).getD "") = "" ∧
      load_config env isfile = Except.error (PyError.environmentError
        ("Required environment variable " ++ name ++ " is not set."))) ∨
    ((∀ name ∈ requiredEnvVars, pyStrip ((env name).getD "") ≠ "") ∧
      ∃ cfg, load_config env isfile = Except.ok cfg) := by
  by_cases h1 : pyStrip ((env "OPNSENSE_HOST").getD "") = ""
  · exact Or.inl ⟨"OPNSENSE_HOST", by simp [requiredEnvVars], h1,
      by simp [load_config, get_env, hscheme, h1]⟩
  by_cases h2 : pyStrip ((env "OPNSENSE_KEY").getD "") = ""
  · exact Or.inl ⟨"OPNSENSE_KEY", by simp [requiredEnvVars], h2,
      by simp [load_config, get_env, hscheme, h1, h2]⟩
  by_cases h3 : pyStrip ((env "OPNSENSE_SECRET").getD "") = ""
  · exact Or.inl ⟨"OPNSENSE_SECRET", by simp [requiredEnvVars], h3,
      by simp [load_config, get_env, hscheme, h1, h2, h3]⟩
  by_cases h4 : pyStrip ((env "PHPIPAM_HOST").getD "") = ""
  · exact Or.inl ⟨"PHPIPAM_HOST", by simp [requiredEnvVars], h4,
      by simp [load_config, get_env, hscheme, h1, h2, h3, h4]⟩
  by_cases h5 : pyStrip ((env "PHPIPAM_APP_ID").getD "") = ""
  · exact Or.inl ⟨"PHPIPAM_APP_ID", by simp [requiredEnvVars], h5,
      by simp [load_config, get_env, hscheme, h1, h2, h3, h4, h5]⟩
  by_cases h6 : pyStrip ((env "PHPIPAM_APP_CODE").getD "") = ""
  · exact Or.inl ⟨"PHPIPAM_APP_CODE", by simp [requiredEnvVars], h6,
      by simp [load_config, get_env, hscheme, h1, h2, h3, h4, h5, h6]⟩
  by_cases h7 : pyStrip ((env "PHPIPAM_SUBNET_ID").getD "") = ""
  · exact Or.inl ⟨"PHPIPAM_SUBNET_ID", by simp [requiredEnvVars], h7,
      by simp [load_config, get_env, hscheme, h1, h2, h3, h4, h5, h6, h7]⟩
  refine Or.inr ⟨?_, ?_⟩
  · intro nm hnm
    simp only [requiredEnvVars, List.mem_cons, List.mem_singleton,
      List.not_mem_nil, or_false] at hnm
    rcases hnm with rfl | rfl | rfl | rfl | rfl | rfl | rfl <;> assumption
  · cases hlc : load_config env isfile with
    | ok cfg => exact ⟨cfg, rfl⟩
    | error e =>
      exfalso
      simp [load_config, get_env, hscheme, h1, h2, h3, h4, h5, h6, h7] at hlc

/-- Counterexample to claim C8 as stated: with every required variable set
and non-blank but PHPIPAM_SCHEME set to ftp, the scheme error is detected
before any network call, yet the run ends as an uncaught ValueError (main
catches only EnvironmentError), not as the clean handled termination the
claim describes. -/
theorem c8_counterexample_scheme_uncaught :
    main
        (fun n => if n = "PHPIPAM_SCHEME" then some "ftp"
          else if n ∈ requiredEnvVars then some "x" else none)
        (fun _ => false) =
      MainResult.uncaught
        (PyError.valueError "PHPIPAM_SCHEME must be http or https.") := by
  decide

/-- Claim C8 amended: a missing or blank required variable (with a valid
scheme) is detected before any network call and terminates cleanly through
the handled path, exit status 1, with a descriptive message naming the
variable; an invalid scheme is also detected before any network call but
propagates as an uncaught ValueError rather than the handled exit (the
interpreter still terminates non-zero); and a run only reaches sync (the
only network activity) when every required variable is non-blank, so no
required field is ever silently defaulted. -/
theorem c8_config_validation (env : Env) (isfile : String → Bool) :
    ((pyLower (pyStrip ((env "PHPIPAM_SCHEME").getD "https")) = "http" ∨
        pyLower (pyStrip ((env "PHPIPAM_SCHEME").getD "https")) = "https") →
      (∃ name ∈ requiredEnvVars, pyStrip ((env name).getD "") = "") →
      ∃ name, name ∈ requiredEnvVars ∧
        main env isfile = MainResult.exited 1
          ("Required environment variable " ++ name ++ " is not set.")) ∧
    (¬ (pyLower (pyStrip ((env "PHPIPAM_SCHEME").getD "https")) = "http" ∨
        pyLower (pyStrip ((env "PHPIPAM_SCHEME").getD "https")) = "https") →
      main env isfile = MainResult.uncaught
        (PyError.valueError "PHPIPAM_SCHEME must be http or https.")) ∧
    (∀ cfg, main env isfile = MainResult.synced cfg →
      ∀ name ∈ requiredEnvVars, pyStrip ((env name).getD "") ≠ "") := by
  refine ⟨?_, ?_, ?_⟩
  · intro hscheme hblank
    rcases load_config_spec env isfile hscheme with
      ⟨nm, hmem, _, herr⟩ | ⟨hall, _⟩
    · exact ⟨nm, hmem, by simp [main, herr]⟩
    · obtain ⟨nm, hmem, hb⟩ := hblank
      exact absurd hb (hall nm hmem)
  · intro hinv
    have hnotin : pyLower (pyStrip ((env "PHPIPAM_SCHEME").getD "https")) ∉
        (["http", "https"] : List String) := by
      simpa using hinv
    have herr : load_config env isfile = Except.error
        (PyError.valueError "PHPIPAM_SCHEME must be http or https.") := by
      simp only [load_config]
      rw [if_pos hnotin]
    simp [main, herr]
  · intro cfg hsync nm hnm hb
    by_cases hscheme : pyLower (pyStrip ((env "PHPIPAM_SCHEME").getD "https")) = "http" ∨
        pyLower (pyStrip ((env "PHPIPAM_SCHEME").getD "https")) = "https"
    · rcases load_config_spec env isfile hscheme with
        ⟨nm2, _, _, herr⟩ | ⟨hall, _⟩
      · rw [main, herr] at hsync
        cases hsync
      · exact hall nm hnm hb
    · have hnotin : pyLower (pyStrip ((env "PHPIPAM_SCHEME").getD "https")) ∉
          (["http", "https"] : List String) := by
        simpa using hscheme
      have herr : load_config env isfile = Except.error
          (PyError.valueError "PHPIPAM_SCHEME must be http or https.") := by
        simp only [load_config]
        rw [if_pos hnotin]
      rw [main, herr] at hsync
      cases hsync

/-- Closed instance of c8_config_validation: with a blank OPNSENSE_KEY and
default scheme, the run terminates through the handled path with exit
status 1 and the message naming the variable. -/
theorem c8_config_validation_witness :
    main
        (fun n => if n = "OPNSENSE_KEY" then none
          else if n ∈ requiredEnvVars then some "x" else none)
        (fun _ => false) =
      MainResult.exited 1
        "Required environment variable OPNSENSE_KEY is not set." := by
  have happ := (c8_config_validation
      (fun n => if n = "OPNSENSE_KEY" then none
        else if n ∈ requiredEnvVars then some "x" else none)
      (fun _ => false)).1 (by decide) ⟨"OPNSENSE_KEY", by decide, by decide⟩
  obtain ⟨nm, hmem, heq⟩ := happ
  decide

theorem update_mem_writesOf {existing : List (String × Addr)} {sid : String}
    {e : String × HostInfo} {i m h : String}
    (hw : WriteAction.update i m h ∈ writesOf existing sid e) :
    ∃ cur, dictGet? existing e.1 = some cur ∧ i = cur.id ∧
      m = e.2.mac ∧ h = e.2.hostname := by
  unfold writesOf at hw
  cases hcur : dictGet? existing e.1 with
  | none =>
    rw [hcur] at hw
    simp at hw
  | some cur =>
    rw [hcur] at hw
    have hw2 : WriteAction.update i m h ∈
        (if cur.mac ≠ some e.2.mac ∨ cur.hostname ≠ some e.2.hostname then
          [WriteAction.update cur.id e.2.mac e.2.hostname] else []) := hw
    by_cases hd : cur.mac ≠ some e.2.mac ∨ cur.hostname ≠ some e.2.hostname
    · rw [if_pos hd] at hw2
      rw [List.mem_singleton] at hw2
      cases hw2
      exact ⟨cur, rfl, rfl, rfl, rfl⟩
    · rw [if_neg hd] at hw2
      cases hw2

theorem create_mem_writesOf {existing : List (String × Addr)} {sid : String}
    {e : String × HostInfo} {s2 ip2 m h : String}
    (hw : WriteAction.create s2 ip2 m h ∈ writesOf existing sid e) :
    dictGet? existing e.1 = none ∧ s2 = sid ∧ ip2 = e.2.ip ∧
      m = e.2.mac ∧ h = e.2.hostname := by
  unfold writesOf at hw
  cases hcur : dictGet? existing e.1 with
  | none =>
    rw [hcur] at hw
    rw [List.mem_singleton] at hw
    cases hw
    exact ⟨rfl, rfl, rfl, rfl, rfl⟩
  | some cur =>
    rw [hcur] at hw
    have hw2 : WriteAction.create s2 ip2 m h ∈
        (if cur.mac ≠ some e.2.mac ∨ cur.hostname ≠ some e.2.hostname then
          [WriteAction.update cur.id e.2.mac e.2.hostname] else []) := hw
    by_cases hd : cur.mac ≠ some e.2.mac ∨ cur.hostname ≠ some e.2.hostname
    · rw [if_pos hd] at hw2
      simp at hw2
    · rw [if_neg hd] at hw2
      cases hw2

theorem dictGet?_isSome_of_mem {α : Type} {d : List (String × α)}
    {k : String} {a : α} (h : (k, a) ∈ d) : ∃ v, dictGet? d k = some v := by
  induction d with
  | nil => cases h
  | cons p rest ih =>
    by_cases hp : p.1 = k
    · exact ⟨p.2, by simp [dictGet?, hp]⟩
    · rcases List.mem_cons.mp h with h1 | h1
      · exact absurd (congrArg Prod.fst h1.symm) hp
      · obtain ⟨v, hv⟩ := ih h1
        exact ⟨v, by simp [dictGet?, hp, hv]⟩

theorem ids_distinct {existing : List (String × Addr)}
    (hids : (existing.map (fun p => p.2.id)).Nodup)
    {k1 k2 : String} {a1 a2 : Addr}
    (h1 : dictGet? existing k1 = some a1) (h2 : dictGet? existing k2 = some a2)
    (hne : k1 ≠ k2) : a1.id ≠ a2.id := by
  have hm1 : (k1, a1) ∈ existing := dictGet?_eq_some_mem h1
  have hm2 : (k2, a2) ∈ existing := dictGet?_eq_some_mem h2
  intro hid
  have h3 := List.inj_on_of_nodup_map hids hm1 hm2 hid
  exact hne (congrArg Prod.fst h3)

theorem dictGet?_erase_ne {α : Type} [DecidableEq α]
    (d : List (String × α)) (x : String × α) (k : String) (hk : x.1 ≠ k) :
    dictGet? (d.erase x) k = dictGet? d k := by
  induction d with
  | nil => rfl
  | cons b t ih =>
    rw [List.erase_cons]
    by_cases hb : b = x
    · subst hb
      have hb1 : b.1 ≠ k := hk
      simp [dictGet?, hb1]
    · have hbx : (b == x) = false := beq_false_of_ne hb
      rw [hbx]
      simp only [Bool.false_eq_true, if_false]
      by_cases hb1 : b.1 = k <;> simp [dictGet?, hb1, ih]

theorem decision_congr {existing existing2 : List (String × Addr)}
    {e : String × HostInfo}
    (h : dictGet? existing e.1 = dictGet? existing2 e.1) :
    decision existing e = decision existing2 e := by
  unfold decision
  rw [h]

theorem writesOf_congr {existing existing2 : List (String × Addr)}
    {sid : String} {e : String × HostInfo}
    (h : dictGet? existing e.1 = dictGet? existing2 e.1) :
    writesOf existing sid e = writesOf existing2 sid e := by
  unfold writesOf
  rw [h]

theorem flatMap_congr_mem {α β : Type} {l : List α} {f g : α → List β}
    (h : ∀ a ∈ l, f a = g a) : l.flatMap f = l.flatMap g := by
  induction l with
  | nil => rfl
  | cons a rest ih =>
    rw [List.flatMap_cons, List.flatMap_cons,
      h a (List.mem_cons_self a rest),
      ih (fun b hb => h b (List.mem_cons_of_mem _ hb))]

theorem sync_congr (hosts : List (String × HostInfo))
    (existing existing2 : List (String × Addr)) (sid : String)
    (h : ∀ e ∈ hosts, dictGet? existing e.1 = dictGet? existing2 e.1) :
    sync hosts existing sid = sync hosts existing2 sid := by
  rw [sync_eq, sync_eq]
  have hdec : ∀ e ∈ hosts, decision existing e = decision existing2 e :=
    fun e he => decision_congr (h e he)
  have hfil : ∀ dec : Decision,
      hosts.filter (fun e => decide (decision existing e = dec)) =
      hosts.filter (fun e => decide (decision existing2 e = dec)) := by
    intro dec
    refine List.filter_congr ?_
    intro e he
    rw [hdec e he]
  rw [hfil Decision.create, hfil Decision.update, hfil Decision.skip,
    flatMap_congr_mem (fun e he => writesOf_congr (h e he))]

/-- Claim C10 (frame property): a remote record whose key does not occur
among the canonical host IPs receives no write of any kind: no update
targets its id, no create targets its key, and removing the record from
the existing mapping changes neither the summary nor the writes, so the
run depends only on the existing records at the canonical IPs.  The model
has no delete at all: WriteAction has only create and update, mirroring
the only two write helpers in the source. -/
theorem c10_untouched_records (hosts : List (String × HostInfo))
    (existing : List (String × Addr)) (sid k : String) (a : Addr)
    (hwf : ∀ p ∈ hosts, p.2.ip = p.1)
    (hids : (existing.map (fun p => p.2.id)).Nodup)
    (hk : (k, a) ∈ existing) (hnot : k ∉ hosts.map Prod.fst) :
    (∀ m h, WriteAction.update a.id m h ∉ (sync hosts existing sid).2) ∧
    (∀ s2 m h, WriteAction.create s2 k m h ∉ (sync hosts existing sid).2) ∧
    sync hosts existing sid = sync hosts (existing.erase (k, a)) sid := by
  refine ⟨?_, ?_, ?_⟩
  · intro m h hmem
    rw [sync_eq] at hmem
    obtain ⟨e, he, hw⟩ := List.mem_flatMap.mp hmem
    obtain ⟨cur, hcur, hid, _, _⟩ := update_mem_writesOf hw
    have hek : e.1 ≠ k := by
      intro hc
      exact hnot (hc ▸ List.mem_map_of_mem Prod.fst he)
    have hmem1 : (e.1, cur) ∈ existing := dictGet?_eq_some_mem hcur
    have hne : cur.id ≠ a.id := by
      intro hcid
      have h3 := List.inj_on_of_nodup_map hids hmem1 hk hcid
      exact hek (congrArg Prod.fst h3)
    exact hne hid.symm
  · intro s2 m h hmem
    rw [sync_eq] at hmem
    obtain ⟨e, he, hw⟩ := List.mem_flatMap.mp hmem
    obtain ⟨hnone, _, hip2, _, _⟩ := create_mem_writesOf hw
    have hek : e.1 ≠ k := by
      intro hc
      exact hnot (hc ▸ List.mem_map_of_mem Prod.fst he)
    exact hek (hip2.trans (hwf e he)).symm
  · refine sync_congr hosts existing (existing.erase (k, a)) sid ?_
    intro e he
    have hek : k ≠ e.1 := by
      intro hc
      exact hnot (hc ▸ List.mem_map_of_mem Prod.fst he)
    exact (dictGet?_erase_ne existing (k, a) e.1 hek).symm

/-- Closed instance of c9_bad_ip_records_excluded: a 2xx response with a
null data field yields the empty existing mapping. -/
theorem c9_bad_ip_records_excluded_witness :
    get_subnet_addresses { status := 200, body := none } = Except.ok [] :=
  c9_bad_ip_records_excluded.1 200 (by decide) (by decide)

/-- Closed instance of c10_untouched_records: dropping an existing record
at an IP no canonical host mentions leaves the run unchanged. -/
theorem c10_untouched_records_witness :
    sync [("10.0.0.1", { ip := "10.0.0.1", mac := "aa", hostname := "h1" })]
        [("10.0.0.2",
          { id := "5", ip := some "10.0.0.2", mac := some "bb",
            hostname := some "h2" })] "3" =
      sync [("10.0.0.1", { ip := "10.0.0.1", mac := "aa", hostname := "h1" })]
        ([("10.0.0.2",
          { id := "5", ip := some "10.0.0.2", mac := some "bb",
            hostname := some "h2" })].erase
          ("10.0.0.2",
            { id := "5", ip := some "10.0.0.2", mac := some "bb",
              hostname := some "h2" })) "3" :=
  (c10_untouched_records
    [("10.0.0.1", { ip := "10.0.0.1", mac := "aa", hostname := "h1" })]
    [("10.0.0.2",
      { id := "5", ip := some "10.0.0.2", mac := some "bb",
        hostname := some "h2" })] "3" "10.0.0.2"
    { id := "5", ip := some "10.0.0.2", mac := some "bb",
      hostname := some "h2" }
    (by decide) (by decide) (by decide) (by decide)).2.2

/-- Modelled from the spec: the effect of one run's update writes on one
remote record, for the idempotence requirement ("a remote inventory that
exactly reflects the first run's writes", phpIPAM itself is outside src).
An update write rewrites mac and hostname on the record whose id it
targets; creates do not touch existing records. -/
def applyUpdates (ws : List WriteAction) (a : Addr) : Addr :=
  ws.foldl (fun a w =>
    match w with
    | WriteAction.update i m h =>
        if a.id = i then { a with mac := some m, hostname := some h } else a
    | WriteAction.create _ _ _ _ => a) a

/-- Modelled from the spec: the records one run's create writes add to the
remote inventory, each carrying the written ip, mac and hostname under a
fresh opaque id (phpIPAM assigns ids; they are fresh, so no update of the
same run can target them). -/
def createdRecords (ws : List WriteAction) : List (String × Addr) :=
  ws.filterMap (fun w =>
    match w with
    | WriteAction.create _ ip m h =>
        some (ip, { id := "created-" ++ ip, ip := some ip,
                    mac := some m, hostname := some h })
    | WriteAction.update _ _ _ => none)

/-- Modelled from the spec: the remote inventory after a run's writes,
keyed by ip as get_subnet_addresses would key it on the next run: every
pre-existing record with its updates applied, then the created records. -/
def applyWrites (existing : List (String × Addr)) (ws : List WriteAction) :
    List (String × Addr) :=
  existing.map (fun p => (p.1, applyUpdates ws p.2)) ++ createdRecords ws

theorem applyUpdates_append (w1 w2 : List WriteAction) (a : Addr) :
    applyUpdates (w1 ++ w2) a = applyUpdates w2 (applyUpdates w1 a) := by
  unfold applyUpdates
  rw [List.foldl_append]

theorem applyUpdates_id (ws : List WriteAction) (a : Addr) :
    (applyUpdates ws a).id = a.id := by
  induction ws generalizing a with
  | nil => rfl
  | cons w rest ih =>
    cases w with
    | create s ip m h => exact ih a
    | update i m h =>
      show (applyUpdates rest (if a.id = i then _ else a)).id = a.id
      by_cases hi : a.id = i
      · rw [if_pos hi, ih]
      · rw [if_neg hi, ih]

theorem applyUpdates_no_match (ws : List WriteAction) (a : Addr)
    (h : ∀ i m hn, WriteAction.update i m hn ∈ ws → i ≠ a.id) :
    applyUpdates ws a = a := by
  induction ws with
  | nil => rfl
  | cons w rest ih =>
    cases w with
    | create s ip m hn =>
      exact ih fun i m2 h2 hm => h i m2 h2 (List.mem_cons_of_mem _ hm)
    | update i m hn =>
      have hi : i ≠ a.id := h i m hn (List.mem_cons_self _ rest)
      show applyUpdates rest (if a.id = i then _ else a) = a
      rw [if_neg (fun hc => hi hc.symm)]
      exact ih fun i2 m2 h2 hm => h i2 m2 h2 (List.mem_cons_of_mem _ hm)

theorem applyUpdates_single (a : Addr) (m h : String) :
    applyUpdates [WriteAction.update a.id m h] a =
      { a with mac := some m, hostname := some h } := by
  show (if a.id = a.id then _ else a) = _
  rw [if_pos rfl]

theorem dictGet?_append_left {α : Type} {a b : List (String × α)}
    {k : String} {v : α} (h : dictGet? a k = some v) :
    dictGet? (a ++ b) k = some v := by
  rw [dictGet?_append, h]

theorem dictGet?_append_right {α : Type} {a b : List (String × α)}
    {k : String} (h : dictGet? a k = none) :
    dictGet? (a ++ b) k = dictGet? b k := by
  rw [dictGet?_append, h]

theorem createdRecords_append (w1 w2 : List WriteAction) :
    createdRecords (w1 ++ w2) = createdRecords w1 ++ createdRecords w2 := by
  unfold createdRecords
  rw [List.filterMap_append]

theorem no_update_match_segment {existing : List (String × Addr)}
    {sid : String} {lseg : List (String × HostInfo)} {ip : String}
    {cur : Addr} (hids : (existing.map (fun p => p.2.id)).Nodup)
    (hcur : dictGet? existing ip = some cur)
    (hseg : ∀ q ∈ lseg, q.1 ≠ ip) :
    ∀ i m hn, WriteAction.update i m hn ∈
      lseg.flatMap (writesOf existing sid) → i ≠ cur.id := by
  intro i m hn hmem hic
  obtain ⟨q, hq, hw⟩ := List.mem_flatMap.mp hmem
  obtain ⟨curq, hcurq, hiq, _, _⟩ := update_mem_writesOf hw
  have hne : curq.id ≠ cur.id := ids_distinct hids hcurq hcur (hseg q hq)
  exact hne (hiq ▸ hic)

theorem createdRecords_segment_keys {existing : List (String × Addr)}
    {sid : String} {lseg : List (String × HostInfo)} {ip : String}
    (hwf : ∀ q ∈ lseg, q.2.ip = q.1) (hseg : ∀ q ∈ lseg, q.1 ≠ ip) :
    ∀ p ∈ createdRecords (lseg.flatMap (writesOf existing sid)),
      p.1 ≠ ip := by
  intro p hp
  unfold createdRecords at hp
  obtain ⟨w, hwmem, hww⟩ := List.mem_filterMap.mp hp
  obtain ⟨q, hq, hw⟩ := List.mem_flatMap.mp hwmem
  cases w with
  | update i m hn => cases hww
  | create s2 ip2 m hn =>
    obtain ⟨_, _, hip2, _, _⟩ := create_mem_writesOf hw
    have hp1 : p.1 = ip2 := (congrArg Prod.fst (Option.some.inj hww)).symm
    rw [hp1, hip2, hwf q hq]
    exact hseg q hq

theorem decision_skip_of_lookup {existing2 : List (String × Addr)}
    {e : String × HostInfo} {cur2 : Addr}
    (h : dictGet? existing2 e.1 = some cur2)
    (hm : cur2.mac = some e.2.mac) (hh : cur2.hostname = some e.2.hostname) :
    decision existing2 e = Decision.skip := by
  unfold decision
  rw [h]
  simp [hm, hh]

theorem run2_decision_skip (hosts : List (String × HostInfo))
    (existing : List (String × Addr)) (sid : String)
    (hkeys : (hosts.map Prod.fst).Nodup)
    (hwf : ∀ p ∈ hosts, p.2.ip = p.1)
    (hids : (existing.map (fun p => p.2.id)).Nodup)
    (e : String × HostInfo) (he : e ∈ hosts) :
    decision (applyWrites existing (hosts.flatMap (writesOf existing sid))) e =
      Decision.skip := by
  obtain ⟨l1, l2, hsplit⟩ := List.append_of_mem he
  have hnd := hkeys
  rw [hsplit, List.map_append, List.map_cons, List.nodup_append] at hnd
  obtain ⟨nd1, ndc, disj⟩ := hnd
  rw [List.nodup_cons] at ndc
  have hnotl2 : e.1 ∉ l2.map Prod.fst := ndc.1
  have hnotl1 : e.1 ∉ l1.map Prod.fst :=
    fun hmem => disj hmem (List.mem_cons_self _ _)
  have hseg1 : ∀ q ∈ l1, q.1 ≠ e.1 := by
    intro q hq hc
    exact hnotl1 (hc ▸ List.mem_map_of_mem Prod.fst hq)
  have hseg2 : ∀ q ∈ l2, q.1 ≠ e.1 := by
    intro q hq hc
    exact hnotl2 (hc ▸ List.mem_map_of_mem Prod.fst hq)
  have hwf1 : ∀ q ∈ l1, q.2.ip = q.1 :=
    fun q hq => hwf q (hsplit ▸ List.mem_append_left _ hq)
  have heip : e.2.ip = e.1 := hwf e he
  have hw1 : hosts.flatMap (writesOf existing sid) =
      l1.flatMap (writesOf existing sid) ++
        (writesOf existing sid e ++ l2.flatMap (writesOf existing sid)) := by
    rw [hsplit]
    simp
  cases hcur : dictGet? existing e.1 with
  | none =>
    have hmapped : dictGet?
        (existing.map (fun p =>
          (p.1, applyUpdates (hosts.flatMap (writesOf existing sid)) p.2)))
        e.1 = none := by
      rw [dictGet?_map_value, hcur]
      rfl
    have hours : writesOf existing sid e =
        [WriteAction.create sid e.2.ip e.2.mac e.2.hostname] := by
      unfold writesOf
      rw [hcur]
    have hcrB : dictGet?
        (createdRecords [WriteAction.create sid e.2.ip e.2.mac e.2.hostname])
        e.1 =
        some { id := "created-" ++ e.2.ip, ip := some e.2.ip,
               mac := some e.2.mac, hostname := some e.2.hostname } := by
      simp [createdRecords, dictGet?, heip]
    have hcr1 : dictGet?
        (createdRecords (l1.flatMap (writesOf existing sid))) e.1 = none :=
      dictGet?_eq_none_of_keys (createdRecords_segment_keys hwf1 hseg1)
    have hlookup : dictGet?
        (applyWrites existing (hosts.flatMap (writesOf existing sid))) e.1 =
        some { id := "created-" ++ e.2.ip, ip := some e.2.ip,
               mac := some e.2.mac, hostname := some e.2.hostname } := by
      unfold applyWrites
      rw [dictGet?_append_right hmapped, hw1, createdRecords_append,
        createdRecords_append, dictGet?_append_right hcr1, hours,
        dictGet?_append_left hcrB]
    exact decision_skip_of_lookup hlookup rfl rfl
  | some cur =>
    have hmapped : dictGet?
        (existing.map (fun p =>
          (p.1, applyUpdates (hosts.flatMap (writesOf existing sid)) p.2)))
        e.1 =
        some (applyUpdates (hosts.flatMap (writesOf existing sid)) cur) := by
      rw [dictGet?_map_value, hcur]
      rfl
    have hlookup : dictGet?
        (applyWrites existing (hosts.flatMap (writesOf existing sid))) e.1 =
        some (applyUpdates (hosts.flatMap (writesOf existing sid)) cur) := by
      unfold applyWrites
      exact dictGet?_append_left hmapped
    have hno1 := @no_update_match_segment existing sid l1 e.1 cur hids hcur hseg1
    have hno2 := @no_update_match_segment existing sid l2 e.1 cur hids hcur hseg2
    by_cases hd : cur.mac ≠ some e.2.mac ∨ cur.hostname ≠ some e.2.hostname
    · have hours : writesOf existing sid e =
          [WriteAction.update cur.id e.2.mac e.2.hostname] := by
        unfold writesOf
        rw [hcur]
        show (if cur.mac ≠ some e.2.mac ∨ cur.hostname ≠ some e.2.hostname then
            [WriteAction.update cur.id e.2.mac e.2.hostname] else []) =
          [WriteAction.update cur.id e.2.mac e.2.hostname]
        rw [if_pos hd]
      have hcompute : applyUpdates (hosts.flatMap (writesOf existing sid)) cur =
          { cur with mac := some e.2.mac, hostname := some e.2.hostname } := by
        rw [hw1, hours, applyUpdates_append,
          applyUpdates_no_match _ cur hno1, applyUpdates_append,
          applyUpdates_single]
        exact applyUpdates_no_match _ _ hno2
      rw [hcompute] at hlookup
      exact decision_skip_of_lookup hlookup rfl rfl
    · push_neg at hd
      have hours : writesOf existing sid e = [] := by
        unfold writesOf
        rw [hcur]
        show (if cur.mac ≠ some e.2.mac ∨ cur.hostname ≠ some e.2.hostname then
            [WriteAction.update cur.id e.2.mac e.2.hostname] else []) = []
        rw [if_neg]
        push_neg
        exact hd
      have hcompute : applyUpdates (hosts.flatMap (writesOf existing sid)) cur =
          cur := by
        rw [hw1, hours, List.nil_append, applyUpdates_append,
          applyUpdates_no_match _ cur hno1]
        exact applyUpdates_no_match _ cur hno2
      rw [hcompute] at hlookup
      exact decision_skip_of_lookup hlookup hd.1 hd.2

theorem sync_all_skip (hosts : List (String × HostInfo))
    (existing2 : List (String × Addr)) (sid : String)
    (h : ∀ e ∈ hosts, decision existing2 e = Decision.skip) :
    (sync hosts existing2 sid).1 =
      { created := 0, updated := 0, skipped := hosts.length } := by
  rw [sync_eq]
  have hc : hosts.filter
      (fun e => decide (decision existing2 e = Decision.create)) = [] := by
    rw [List.filter_eq_nil_iff]
    intro a ha
    simp [h a ha]
  have hu : hosts.filter
      (fun e => decide (decision existing2 e = Decision.update)) = [] := by
    rw [List.filter_eq_nil_iff]
    intro a ha
    simp [h a ha]
  have hs : hosts.filter
      (fun e => decide (decision existing2 e = Decision.skip)) = hosts := by
    rw [List.filter_eq_self]
    intro a ha
    simp [h a ha]
  simp [hc, hu, hs]

/-- Claim C3 (idempotence): for any pair of source inputs, run the sync
pass once against any existing inventory with unique record ids, then
apply its writes to that inventory (updates rewrite mac and hostname on
the targeted record, creates append fresh records, per the spec's "remote
inventory that exactly reflects the first run's writes"); the second run
over the same merged hosts then counts zero creates, zero updates, and
every canonical host as skipped. -/
theorem c3_idempotence (leases : List LeaseEntry) (arp : List ArpEntry)
    (existing : List (String × Addr)) (sid : String)
    (hids : (existing.map (fun p => p.2.id)).Nodup) :
    (sync (merge_sources leases arp)
        (applyWrites existing (sync (merge_sources leases arp) existing sid).2)
        sid).1 =
      { created := 0, updated := 0,
        skipped := (merge_sources leases arp).length } := by
  have hwf := merge_sources_wf leases arp
  have hwrites : (sync (merge_sources leases arp) existing sid).2 =
      (merge_sources leases arp).flatMap (writesOf existing sid) := by
    rw [sync_eq]
  rw [hwrites]
  refine sync_all_skip _ _ sid ?_
  intro e he
  exact run2_decision_skip _ existing sid hwf.1
    (fun p hp => (hwf.2 p hp).1) hids e he

/-- Closed instance of c3_idempotence: one lease against a one-record
inventory; after applying the first run's writes the second run skips
everything. -/
theorem c3_idempotence_witness :
    (sync
        (merge_sources
          [{ address := some "10.0.0.1", mac := some "aa",
             hostname := some "h1" }] [])
        (applyWrites
          [("10.0.0.2",
            { id := "5", ip := some "10.0.0.2", mac := some "bb",
              hostname := some "h2" })]
          (sync
            (merge_sources
              [{ address := some "10.0.0.1", mac := some "aa",
                 hostname := some "h1" }] [])
            [("10.0.0.2",
              { id := "5", ip := some "10.0.0.2", mac := some "bb",
                hostname := some "h2" })] "3").2)
        "3").1 =
      { created := 0, updated := 0,
        skipped := (merge_sources
          [{ address := some "10.0.0.1", mac := some "aa",
             hostname := some "h1" }] []).length } :=
  c3_idempotence
    [{ address := some "10.0.0.1", mac := some "aa", hostname := some "h1" }]
    []
    [("10.0.0.2",
      { id := "5", ip := some "10.0.0.2", mac := some "bb",
        hostname := some "h2" })]
    "3" (by decide)

end PhpipamSync

